import Mathlib

/-!
Verification development for the acyclicloader Go package.

The package builds a directed acyclic graph of named components, each defined
by a constructor function whose single struct parameter declares its
dependencies, and loads requested components with memoization.  We give a
shallow embedding of the package: Go reflection data (function shapes, result
types) becomes explicit inductive data, the mutable loader becomes explicit
state passing, and the two places where the Go code can hit a runtime panic
(a type assertion of a nil error, and calling String on a nil reflect.Type)
become explicit crash outcomes.  The concurrent load protocol is modelled by
its canonical sequential schedule: a dispatched goroutine runs to completion
before the dispatching loop continues; constructor invocations are recorded
in an explicit call log.
-/

/-- Model of Go types as compared by the validator (reflect.Type values).
`error` stands for the built-in error interface, the type `typeOfError`
in the source. -/
inductive Ty where
  | int
  | float64
  | str
  | error
  | named (s : String)
deriving DecidableEq, Repr

/-- Load-time errors: the error types of errors.go, plus opaque user errors
returned by component constructors.  `dependencyLoad` models
DependencyLoadError with its trace and the original (inner) error. -/
inductive Err where
  | user (s : String)
  | undefinedComponent (c : String)
  | dependencyLoad (trace : List String) (inner : Err)
deriving DecidableEq, Repr

/-- Go interface values as stored in a component's `value` field.
`nil` is the nil interface (the zero value of interface type);
`errVal` is an error boxed as a plain interface value. -/
inductive Val where
  | nil
  | int (n : Int)
  | str (s : String)
  | errVal (e : Err)
deriving DecidableEq, Repr

/-- One result of invoking a constructor through reflection.
A result in an error-typed position is modelled as `e x` where
`x = none` models a nil error. -/
inductive RVal where
  | v (x : Val)
  | e (x : Option Err)
deriving DecidableEq, Repr

/-- An input parameter of a constructor function: either a struct whose
fields (name, type) declare dependencies, or a parameter of some
non-struct type. -/
inductive Param where
  | structP (fields : List (String × Ty))
  | otherP (t : Ty)

/-- The reflective shape and semantics of a constructor function:
its parameter list, its result types in order, and its behaviour when
called with the resolved dependency values. -/
structure FuncDef where
  params : List Param
  outs : List Ty
  body : List Val → List RVal

/-- The right-hand side of an entry of the Components map: nil, a non-function
value of some type, or a function. -/
inductive Definition where
  | nilDef
  | notFunc (t : Ty)
  | func (f : FuncDef)

/-- The structured content of a ComponentDefinitionError message, one
constructor per `fmt.Sprintf` site in New. -/
inductive DefErrKind where
  | nilDefinition
  | notFunction (t : Ty)
  | badSecondResult (t : Ty)
  | tooManyResults (n : Nat)
  | tooManyParams (n : Nat)
  | inputNotStruct (t : Ty)
  | undefinedDependency (dep : String)
  | typeMismatch (dep : String) (depResult : Ty) (expected : Ty)
  | dependencyCycle (path : List String)
deriving DecidableEq, Repr

/-- The `component` struct of the source: constructor, result type
(none models a nil reflect.Type), dependency names in declared order, and
the mutable cache cell (value, err, loaded, loading). -/
structure CompState where
  fn : FuncDef
  result : Option Ty
  dependencies : List String
  value : Val
  err : Option Err
  loaded : Bool
  loading : Bool

/-- The AcyclicLoader: the set of component names together with the
name-to-component mapping (the Go map, modelled as a lookup function). -/
structure AcyclicLoader where
  names : List String
  comp : String → Option CompState

/-- A Go map[string]interface{} of component definitions: its key sequence in
some iteration order, and its contents as a lookup function. -/
structure GoMap where
  keys : List String
  find : String → Option Definition

/-- Result of New: a loader, a ComponentDefinitionError (component plus
structured message), or a Go runtime panic. -/
inductive BuildResult where
  | ok (g : AcyclicLoader)
  | defErr (component : String) (kind : DefErrKind)
  | crashed

/-- Lexicographic comparison of character lists, the order used by
sort.Strings (codepoint-lexicographic order agrees with the byte-wise
UTF-8 order Go uses). -/
def charsLe : List Char → List Char → Bool
  | [], _ => true
  | _ :: _, [] => false
  | a :: as, b :: bs => if a < b then true else if b < a then false else charsLe as bs

/-- Lexicographic string comparison. -/
def strLe (a b : String) : Bool := charsLe a.data b.data

/-- The `sort.Strings(componentNames)` call: lexicographic sort. -/
def sortStrings (l : List String) : List String :=
  List.insertionSort (fun a b : String => strLe a b = true) l

/-- Insertion into a Go map modelled as a lookup function. -/
def mapUpdate {α : Type} (m : String → Option α) (k : String) (v : α) :
    String → Option α :=
  fun x => if x = k then some v else m x

/-- The fn/result pair stored for each component by the first loop of New. -/
structure PreComp where
  fn : FuncDef
  result : Option Ty

/-- Result of the first validation loop of New. -/
inductive Phase1Res where
  | ok (m : String → Option PreComp)
  | fail (component : String) (kind : DefErrKind)

/-- First loop of New ("Populate components"): for each name in sorted order,
check the definition is a function with at most two results whose second
result, if present, is of error type, and record the result type exactly as
the source does (one non-error result gives that type, otherwise none). -/
def phase1 : List String → (String → Option Definition) →
    (String → Option PreComp) → Phase1Res
  | [], _, acc => .ok acc
  | name :: rest, find, acc =>
    match (find name).getD Definition.nilDef with
    | .nilDef => .fail name .nilDefinition
    | .notFunc t => .fail name (.notFunction t)
    | .func f =>
      match f.outs with
      | [] => phase1 rest find (mapUpdate acc name ⟨f, none⟩)
      | [t] =>
        phase1 rest find
          (mapUpdate acc name ⟨f, if t = Ty.error then none else some t⟩)
      | [t1, t2] =>
        if t2 = Ty.error then phase1 rest find (mapUpdate acc name ⟨f, some t1⟩)
        else .fail name (.badSecondResult t2)
      | _ => .fail name (.tooManyResults f.outs.length)

/-- Result of resolving the dependency fields of one component. -/
inductive DepRes where
  | ok (deps : List String)
  | fail (kind : DefErrKind)
  | crashed

/-- Resolve the struct fields of a constructor parameter against the
component table.  A field naming an undefined component is a definition
error.  A field whose type differs from the referenced component's result
type is a type-mismatch definition error, except that when the referenced
component has no result type at all the source calls String() on a nil
reflect.Type while formatting the message, which is a runtime panic,
modelled as `crashed`. -/
def resolveDeps (pre : String → Option PreComp) :
    List (String × Ty) → DepRes
  | [] => .ok []
  | (fname, fty) :: rest =>
    match pre fname with
    | none => .fail (.undefinedDependency fname)
    | some dep =>
      if dep.result = some fty then
        match resolveDeps pre rest with
        | .ok ds => .ok (fname :: ds)
        | .fail k => .fail k
        | .crashed => .crashed
      else
        match dep.result with
        | none => .crashed
        | some rt => .fail (.typeMismatch fname rt fty)

/-- Result of the second validation loop of New. -/
inductive Phase2Res where
  | ok (m : String → Option CompState)
  | fail (component : String) (kind : DefErrKind)
  | crashed

/-- A freshly built component cell: Pending state, zero values. -/
def mkComp (pc : PreComp) (deps : List String) : CompState :=
  { fn := pc.fn, result := pc.result, dependencies := deps,
    value := Val.nil, err := none, loaded := false, loading := false }

/-- Second loop of New ("Populate and check dependencies"): for each name in
sorted order, require at most one parameter, require it to be a struct, and
resolve its fields to already-registered components.  The `none` case for a
name is unreachable because the first loop registered every name. -/
def phase2 : List String → (String → Option PreComp) →
    (String → Option CompState) → Phase2Res
  | [], _, acc => .ok acc
  | name :: rest, pre, acc =>
    match pre name with
    | none => phase2 rest pre acc
    | some pc =>
      match pc.fn.params with
      | [] => phase2 rest pre (mapUpdate acc name (mkComp pc []))
      | [p] =>
        match p with
        | .otherP t => .fail name (.inputNotStruct t)
        | .structP fields =>
          match resolveDeps pre fields with
          | .crashed => .crashed
          | .fail k => .fail name k
          | .ok deps => phase2 rest pre (mapUpdate acc name (mkComp pc deps))
      | ps => .fail name (.tooManyParams ps.length)

/-- The inner scan of detectCycles: find the suffix of the current path that
starts at the first occurrence of the given name (the source's
`for i, name := range path` loop, returning `path[i:]`). -/
def pathFrom : List String → String → Option (List String)
  | [], _ => none
  | x :: xs, d => if x = d then some (x :: xs) else pathFrom xs d

/-- One level of the detectCycles depth-first search: iterate the dependency
list; a dependency already on the path closes a cycle reported as the path
slice from its first occurrence, extended with the repetition; otherwise
descend into the dependency (through `recur`) and continue with the
remaining dependencies. -/
def detectStep (m : String → Option CompState)
    (recur : List String → List String → Option (List String)) :
    List String → List String → Option (List String)
  | [], _ => none
  | dep :: deps, path =>
    match pathFrom path dep with
    | some tail => some (tail ++ [dep])
    | none =>
      match
        (match m dep with
         | some c => recur c.dependencies (path ++ [dep])
         | none => none) with
      | some cyc => some cyc
      | none => detectStep m recur deps path

/-- The detectCycles depth-first search over the dependency lists.  The fuel
argument, consumed one unit per level of descent, is a model artifact: the Go
recursion terminates because the path only ever grows by names not already on
it, so with fuel exceeding the number of components the zero-fuel case is
never reached; a dependency missing from the table would be a nil-pointer
dereference in Go and is likewise unreachable after phase2. -/
def detectCycles (m : String → Option CompState) :
    Nat → List String → List String → Option (List String)
  | 0 => fun _ _ => none
  | fuel + 1 => detectStep m (detectCycles m fuel)

/-- The "Check for cycles" loop of New: run detectCycles from every
component in sorted order and return the first cycle found. -/
def cycleScan (m : String → Option CompState) (fuel : Nat) :
    List String → Option (List String)
  | [] => none
  | name :: rest =>
    match m name with
    | none => cycleScan m fuel rest
    | some c =>
      match detectCycles m fuel c.dependencies [name] with
      | some cyc => some cyc
      | none => cycleScan m fuel rest

/-- New: sort the component names, run the two validation loops, then cycle
detection.  A detected cycle is reported with Component set to the first
name of the cycle path, exactly as the source does. -/
def New (m : GoMap) : BuildResult :=
  let names := sortStrings m.keys
  match phase1 names m.find (fun _ => none) with
  | .fail c k => .defErr c k
  | .ok pre =>
    match phase2 names pre (fun _ => none) with
    | .crashed => .crashed
    | .fail c k => .defErr c k
    | .ok comps =>
      match cycleScan comps (names.length + 1) names with
      | some cyc => .defErr (cyc.headD "") (.dependencyCycle cyc)
      | none => .ok ⟨names, comps⟩

/-- Outcome of a Load call: the updated loader with the returned (value, err)
pair and the log of constructor invocations that took place; a Go runtime
panic (the nil-error type assertion); a deadlock (waiting on a dependency
that is in flight with no task to finish it, impossible sequentially); or
fuel exhaustion, a model artifact for dependency chains longer than the
provided fuel. -/
inductive LoadResult where
  | ok (g : AcyclicLoader) (value : Val) (err : Option Err) (calls : List String)
  | crash (calls : List String)
  | hang
  | fuelOut

/-- Outcome of dispatching and waiting for a list of dependencies. -/
inductive DepsResult where
  | ok (g : AcyclicLoader) (calls : List String)
  | crash (calls : List String)
  | hang
  | fuelOut

/-- The first dependency in declared order whose terminal state carries an
error, with that error: the second loop of Load checks `a.components[dep].err`
for each dependency in order and breaks at the first failure. -/
def firstDepErr (g : AcyclicLoader) : List String → Option (String × Err)
  | [] => none
  | d :: ds =>
    match g.comp d with
    | none => firstDepErr g ds
    | some c =>
      match c.err with
      | some e => some (d, e)
      | none => firstDepErr g ds

/-- Wrap a failed dependency's error for this component: a
DependencyLoadError is extended by prepending this component's name to its
trace (DependencyLoadError.extend); any other error is wrapped in a fresh
DependencyLoadError with trace [component, dep]. -/
def wrapDep (name dep : String) (e : Err) : Err :=
  match e with
  | .dependencyLoad trace inner => .dependencyLoad (name :: trace) inner
  | e => .dependencyLoad [name, dep] e

/-- Whether an error is a DependencyLoadError (the type assertion
`err.(*DependencyLoadError)` in the source). -/
def isDepLoadErr : Err → Bool
  | .dependencyLoad _ _ => true
  | _ => false

/-- The `c.loading = true` write. -/
def setLoading (g : AcyclicLoader) (name : String) : AcyclicLoader :=
  ⟨g.names, fun k =>
    if k = name then (g.comp k).map (fun c => { c with loading := true })
    else g.comp k⟩

/-- The terminal write of Load: `c.loaded = true; c.value = value;
c.err = err`. -/
def setDone (g : AcyclicLoader) (name : String) (v : Val) (e : Option Err) :
    AcyclicLoader :=
  ⟨g.names, fun k =>
    if k = name then
      (g.comp k).map (fun c => { c with loaded := true, value := v, err := e })
    else g.comp k⟩

/-- Read a loaded dependency's value (`a.components[dep].value`); the missing
case is unreachable once the dependency list has been dispatched. -/
def compValue (g : AcyclicLoader) (d : String) : Val :=
  match g.comp d with
  | some c => c.value
  | none => Val.nil

/-- Outcome of interpreting the values returned by a constructor call. -/
inductive CallOutcome where
  | fine (value : Val) (err : Option Err)
  | crashed

/-- `ret[i].Interface()` on a result position read as a plain value: an
error-typed result is boxed as an interface value; a nil error becomes the
nil interface. -/
def ifaceOf : RVal → Val
  | .v x => x
  | .e (some er) => Val.errVal er
  | .e none => Val.nil

/-- Interpretation of the constructor's results, following the source: when
the component has a result type, ret[0] is the value and, when a second
result exists, `ret[1].Interface().(error)` is the error -- that type
assertion panics when the returned error is nil (the nil interface is not an
error), modelled as `crashed`.  When there is no result type and exactly one
result, the same assertion is applied to ret[0]. -/
def interpretRet (result : Option Ty) (ret : List RVal) : CallOutcome :=
  match result with
  | some _ =>
    match ret with
    | [] => .crashed
    | r0 :: rest =>
      match rest with
      | [] => .fine (ifaceOf r0) none
      | r1 :: _ =>
        match r1 with
        | .e (some er) => .fine (ifaceOf r0) (some er)
        | _ => .crashed
  | none =>
    match ret with
    | [r0] =>
      match r0 with
      | .e (some er) => .fine Val.nil (some er)
      | _ => .crashed
    | _ => .fine Val.nil none

/-- Dispatch a dependency list in order, given the load function `loadF` for
the dispatched goroutines: a dependency missing from the table is the
nil-pointer dereference of `a.components[dep].loading` in the dispatch loop;
a loaded dependency needs no work; a dependency already in flight would be
waited on forever in a sequential schedule; otherwise its load is dispatched
and runs to completion before the loop continues. -/
def loadDepsWith (loadF : AcyclicLoader → String → LoadResult) :
    AcyclicLoader → List String → DepsResult
  | g, [] => .ok g []
  | g, d :: ds =>
    match g.comp d with
    | none => .crash []
    | some cd =>
      if cd.loaded then loadDepsWith loadF g ds
      else if cd.loading then .hang
      else
        match loadF g d with
        | .fuelOut => .fuelOut
        | .hang => .hang
        | .crash calls => .crash calls
        | .ok g1 _ _ calls =>
          match loadDepsWith loadF g1 ds with
          | .fuelOut => .fuelOut
          | .hang => .hang
          | .crash calls2 => .crash (calls ++ calls2)
          | .ok g2 calls2 => .ok g2 (calls ++ calls2)

/-- The Load protocol under the canonical sequential schedule.  An unknown
name returns an UndefinedComponentError; a loaded component returns its
cached pair with no state change and no constructor call; otherwise the
dependencies are dispatched and waited for, the first failed dependency (in
declared order) is wrapped (skipping this component's constructor), and
otherwise the constructor is called on the resolved dependency values and
its results are interpreted and written back as the terminal state.  The
fuel, consumed one unit per level of dependency descent, is a model
artifact: it exceeds every dependency chain of an acyclic graph when chosen
larger than the component count. -/
def Load : Nat → AcyclicLoader → String → LoadResult
  | 0 => fun _ _ => .fuelOut
  | fuel + 1 => fun g name =>
    match g.comp name with
    | none => .ok g Val.nil (some (Err.undefinedComponent name)) []
    | some c =>
      if c.loaded then .ok g c.value c.err []
      else
        match loadDepsWith (Load fuel) g c.dependencies with
        | .crash calls => .crash calls
        | .hang => .hang
        | .fuelOut => .fuelOut
        | .ok g1 calls =>
          match (firstDepErr g1 c.dependencies).map
              (fun p => wrapDep name p.1 p.2) with
          | some e =>
            .ok (setDone (setLoading g1 name) name Val.nil (some e))
              Val.nil (some e) calls
          | none =>
            match interpretRet c.result
                (c.fn.body (c.dependencies.map (compValue g1))) with
            | .crashed => .crash (calls ++ [name])
            | .fine v e =>
              .ok (setDone (setLoading g1 name) name v e) v e
                (calls ++ [name])

/-- The needsPurging closure of WithOverwrites: a component needs purging if
its name is overwritten or, recursively, one of its dependencies needs
purging.  The fuel is a model artifact: on the acyclic graphs New produces
the recursion depth is bounded by the number of components, so the zero-fuel
case is never reached (on a cyclic graph the Go closure would recurse
forever); a name missing from the table would be a nil-pointer dereference
in Go, unreachable for graphs produced by New. -/
def needsPurging (g : AcyclicLoader) (values : String → Option Val) :
    Nat → String → Bool
  | 0, _ => false
  | fuel + 1, name =>
    if (values name).isSome then true
    else
      match g.comp name with
      | none => false
      | some c => c.dependencies.any (fun d => needsPurging g values fuel d)

/-- WithOverwrites: rebuild every component cell, keeping the cached
value/err pair only when the component does not need purging, then seeding
the overwritten value with a nil error when the name is an overwrite key;
the loaded flag is copied from the source and the loading flag is set to the
source's loaded flag, exactly as the source does. -/
def WithOverwrites (g : AcyclicLoader) (values : String → Option Val) :
    AcyclicLoader :=
  ⟨g.names, fun name =>
    (g.comp name).map (fun c =>
      let kept : Val × Option Err :=
        if needsPurging g values (g.names.length + 1) name then (Val.nil, none)
        else (c.value, c.err)
      let seeded : Val × Option Err :=
        match values name with
        | some val => (val, none)
        | none => kept
      { fn := c.fn, result := c.result, dependencies := c.dependencies,
        value := seeded.1, err := seeded.2,
        loaded := c.loaded, loading := c.loaded })⟩

/-- Clone: copy every component cell, with the loading flag set to the
source's loaded flag (so a source cell that was merely in flight comes out
Pending). -/
def Clone (g : AcyclicLoader) : AcyclicLoader :=
  ⟨g.names, fun name =>
    (g.comp name).map (fun c =>
      { fn := c.fn, result := c.result, dependencies := c.dependencies,
        value := c.value, err := c.err,
        loaded := c.loaded, loading := c.loaded })⟩

/-- Projection: the value returned by a completed Load. -/
def loadValueOf : LoadResult → Option Val
  | .ok _ v _ _ => some v
  | _ => none

/-- Projection: the error returned by a completed Load. -/
def loadErrOf : LoadResult → Option (Option Err)
  | .ok _ _ e _ => some e
  | _ => none

/-- Projection: the constructor-call log of a completed Load. -/
def loadCallsOf : LoadResult → Option (List String)
  | .ok _ _ _ cs => some cs
  | _ => none

/-- Projection: the loader state after a completed Load. -/
def graphOf : LoadResult → Option AcyclicLoader
  | .ok g _ _ _ => some g
  | _ => none

/-- Extract the loader from a successful build (empty loader otherwise). -/
def loaderOf : BuildResult → AcyclicLoader
  | .ok g => g
  | _ => ⟨[], fun _ => none⟩

/-- Whether a build succeeded. -/
def buildOk : BuildResult → Bool
  | .ok _ => true
  | _ => false

/-- A definition `func(options struct\x7bD int\x7d) int` depending on one
component, returning 0. -/
def depIntFn (d : String) : Definition :=
  .func ⟨[.structP [(d, Ty.int)]], [Ty.int], fun _ => [.v (.int 0)]⟩

/-- The cyclic map of the self-dependency testable property: A depends on A. -/
def mapSelf : GoMap := ⟨["A"], fun n => if n = "A" then some (depIntFn "A") else none⟩

/-- The cyclic map A depends on B, B depends on C, C depends on B. -/
def mapBCB : GoMap :=
  ⟨["A", "B", "C"], fun n =>
    if n = "A" then some (depIntFn "B")
    else if n = "B" then some (depIntFn "C")
    else if n = "C" then some (depIntFn "B")
    else none⟩

/-- The cyclic map A depends on B, B depends on C, C depends on A. -/
def mapABCA : GoMap :=
  ⟨["A", "B", "C"], fun n =>
    if n = "A" then some (depIntFn "B")
    else if n = "B" then some (depIntFn "C")
    else if n = "C" then some (depIntFn "A")
    else none⟩

/-- Map for the nil-result-type panic: A declares a dependency on B of type
int, while B's constructor returns nothing at all. -/
def mapNilResult : GoMap :=
  ⟨["A", "B"], fun n =>
    if n = "A" then some (depIntFn "B")
    else if n = "B" then some (.func ⟨[], [], fun _ => []⟩)
    else none⟩

/-- Map with two invalid components: A depends on the undefined component Z
(a dependency-check failure), and B's definition is nil (a constructor-check
failure).  A sorts before B. -/
def mapMixedErrs : GoMap :=
  ⟨["A", "B"], fun n =>
    if n = "A" then some (depIntFn "Z")
    else if n = "B" then some .nilDef
    else none⟩

/-- Map containing only the A-depends-on-undefined-Z component. -/
def mapOnlyA : GoMap := ⟨["A"], fun n => if n = "A" then some (depIntFn "Z") else none⟩

/-- The StaticInt component of the repository's own test: `func() int`
returning 5. -/
def staticIntDef : Definition := .func ⟨[], [Ty.int], fun _ => [.v (.int 5)]⟩

/-- The Plus7 component of the repository's own test: depends on StaticInt
and returns it plus 7. -/
def plus7Def : Definition :=
  .func ⟨[.structP [("StaticInt", Ty.int)]], [Ty.int],
    fun vals =>
      match vals with
      | [Val.int n] => [.v (.int (n + 7))]
      | _ => [.v Val.nil]⟩

/-- The component map of the repository's TestAcyclicLoader. -/
def mapTest : GoMap :=
  ⟨["StaticInt", "Plus7"], fun n =>
    if n = "StaticInt" then some staticIntDef
    else if n = "Plus7" then some plus7Def
    else none⟩

/-- The loader built from the test map, before any load. -/
def gTest0 : AcyclicLoader := loaderOf (New mapTest)

/-- The test loader after Load("Plus7") has resolved both components. -/
def gTest1 : AcyclicLoader := (graphOf (Load 3 gTest0 "Plus7")).getD ⟨[], fun _ => none⟩

/-- The overwrite mapping of the repository's test: StaticInt becomes 7. -/
def owStaticInt7 : String → Option Val :=
  fun n => if n = "StaticInt" then some (.int 7) else none

/-- The derived loader of the repository's test:
loader.WithOverwrites(map[string]interface\x7b\x7d\x7b"StaticInt": 7\x7d). -/
def gTest2 : AcyclicLoader := WithOverwrites gTest1 owStaticInt7

/-- A single fallible component whose constructor `func() (int, error)`
succeeds, returning (5, nil). -/
def mapNilErr : GoMap :=
  ⟨["A"], fun n =>
    if n = "A" then some (.func ⟨[], [Ty.int, Ty.error], fun _ => [.v (.int 5), .e none]⟩)
    else none⟩

/-- The loader built from mapNilErr. -/
def gNilErr : AcyclicLoader := loaderOf (New mapNilErr)

/-- A failing leaf: `func() (int, error)` returning a non-nil error. -/
def failLeafDef : Definition :=
  .func ⟨[], [Ty.int, Ty.error], fun _ => [.v (.int 0), .e (some (.user "boom"))]⟩

/-- The chain A depends on B depends on C where C's constructor fails. -/
def mapChainFail : GoMap :=
  ⟨["A", "B", "C"], fun n =>
    if n = "A" then some (depIntFn "B")
    else if n = "B" then some (depIntFn "C")
    else if n = "C" then some failLeafDef
    else none⟩

/-- The loader built from mapChainFail. -/
def gChainFail : AcyclicLoader := loaderOf (New mapChainFail)

/-- A component cell in terminal successful state, used as witness input. -/
def doneComp : CompState :=
  { fn := ⟨[], [Ty.int], fun _ => [.v (.int 5)]⟩, result := some Ty.int,
    dependencies := [], value := .int 5, err := none,
    loaded := true, loading := true }

/-- A loader with the single, already-loaded component A. -/
def gDone : AcyclicLoader := ⟨["A"], fun n => if n = "A" then some doneComp else none⟩

/-- A dependency cell that terminated with a DependencyLoadError recording
the trace B, C. -/
def failedDepComp : CompState :=
  { fn := ⟨[], [Ty.int], fun _ => [.v (.int 0)]⟩, result := some Ty.int,
    dependencies := [], value := Val.nil,
    err := some (.dependencyLoad ["B", "C"] (.user "boom")),
    loaded := true, loading := true }

/-- A pending component A depending on the failed component B. -/
def dependentComp : CompState :=
  { fn := ⟨[.structP [("B", Ty.int)]], [Ty.int], fun _ => [.v (.int 0)]⟩,
    result := some Ty.int, dependencies := ["B"], value := Val.nil,
    err := none, loaded := false, loading := false }

/-- Loader in which A is pending and its dependency B already failed. -/
def gStepFail : AcyclicLoader :=
  ⟨["A", "B"], fun n =>
    if n = "A" then some dependentComp
    else if n = "B" then some failedDepComp
    else none⟩

/-- A component cell that is merely in flight (loading, not loaded). -/
def inflightComp : CompState :=
  { fn := ⟨[], [Ty.int], fun _ => [.v (.int 1)]⟩, result := some Ty.int,
    dependencies := [], value := Val.nil, err := none,
    loaded := false, loading := true }

/-- A loader whose only component is in flight. -/
def gInflight : AcyclicLoader :=
  ⟨["A"], fun n => if n = "A" then some inflightComp else none⟩

/-- A pending component with no dependencies. -/
def soloComp : CompState :=
  { fn := ⟨[], [Ty.int], fun _ => [.v (.int 1)]⟩, result := some Ty.int,
    dependencies := [], value := Val.nil, err := none,
    loaded := false, loading := false }

/-- A loader with the single pending component A. -/
def gSolo : AcyclicLoader := ⟨["A"], fun n => if n = "A" then some soloComp else none⟩

/-- An overwrite mapping whose only key, Z, is not a defined component. -/
def strayVals : String → Option Val := fun n => if n = "Z" then some (.int 9) else none

/-- State-preservation: every cell that is loaded in the first loader is
present, unchanged, in the second. -/
def preservesLoaded (g g2 : AcyclicLoader) : Prop :=
  ∀ k c, g.comp k = some c → c.loaded = true → g2.comp k = some c

/-- Well-formedness used by the derivation lemmas: every declared dependency
of a defined component is itself defined (guaranteed by New). -/
def depClosed (g : AcyclicLoader) : Prop :=
  ∀ n c, g.comp n = some c → ∀ d, d ∈ c.dependencies → (g.comp d).isSome = true

/-- Totality of the lexicographic comparison. -/
theorem charsLe_total : ∀ as bs : List Char, charsLe as bs = true ∨ charsLe bs as = true
  | [], _ => Or.inl rfl
  | _ :: _, [] => Or.inr rfl
  | a :: as, b :: bs => by
    rcases lt_trichotomy a b with h | h | h
    · exact Or.inl (by simp [charsLe, h])
    · subst h
      rcases charsLe_total as bs with ih | ih
      · exact Or.inl (by simp [charsLe, lt_irrefl, ih])
      · exact Or.inr (by simp [charsLe, lt_irrefl, ih])
    · exact Or.inr (by simp [charsLe, h])

/-- Transitivity of the lexicographic comparison. -/
theorem charsLe_trans : ∀ as bs cs : List Char,
    charsLe as bs = true → charsLe bs cs = true → charsLe as cs = true
  | [], _, _, _, _ => rfl
  | _ :: _, [], _, h1, _ => by simp [charsLe] at h1
  | _ :: _, _ :: _, [], _, h2 => by simp [charsLe] at h2
  | a :: as, b :: bs, c :: cs, h1, h2 => by
    simp only [charsLe] at h1 h2 ⊢
    by_cases hab : a < b
    · by_cases hbc : b < c
      · simp [lt_trans hab hbc]
      · by_cases hcb : c < b
        · simp [hbc, hcb] at h2
        · have hbceq : b = c := le_antisymm (not_lt.mp hcb) (not_lt.mp hbc)
          subst hbceq
          simp [hab]
    · by_cases hba : b < a
      · simp [hab, hba] at h1
      · have habeq : a = b := le_antisymm (not_lt.mp hba) (not_lt.mp hab)
        subst habeq
        simp only [lt_irrefl, if_false] at h1
        by_cases hbc : a < c
        · simp [hbc]
        · by_cases hcb : c < a
          · simp [hbc, hcb] at h2
          · have haceq : a = c := le_antisymm (not_lt.mp hcb) (not_lt.mp hbc)
            subst haceq
            simp only [lt_irrefl, if_false] at h2 ⊢
            exact charsLe_trans as bs cs h1 h2

/-- Antisymmetry of the lexicographic comparison. -/
theorem charsLe_antisymm : ∀ as bs : List Char,
    charsLe as bs = true → charsLe bs as = true → as = bs
  | [], [], _, _ => rfl
  | [], _ :: _, _, h2 => by simp [charsLe] at h2
  | _ :: _, [], h1, _ => by simp [charsLe] at h1
  | a :: as, b :: bs, h1, h2 => by
    simp only [charsLe] at h1 h2
    by_cases hab : a < b
    · by_cases hba : b < a
      · exact absurd (lt_trans hab hba) (lt_irrefl a)
      · simp [hba, hab] at h2
    · by_cases hba : b < a
      · simp [hab, hba] at h1
      · have habeq : a = b := le_antisymm (not_lt.mp hba) (not_lt.mp hab)
        subst habeq
        simp only [lt_irrefl, if_false] at h1 h2
        rw [charsLe_antisymm as bs h1 h2]

instance strLeIsTotal : IsTotal String (fun a b => strLe a b = true) :=
  ⟨fun a b => charsLe_total a.data b.data⟩

instance strLeIsTrans : IsTrans String (fun a b => strLe a b = true) :=
  ⟨fun a b c => charsLe_trans a.data b.data c.data⟩

instance strLeIsAntisymm : IsAntisymm String (fun a b => strLe a b = true) :=
  ⟨fun a b h1 h2 => by
    cases a with
    | mk da => cases b with
      | mk db => exact congrArg String.mk (charsLe_antisymm da db h1 h2)⟩

/-- Sorting is invariant under permutation of the input: two iteration
orders of the same key set sort to the same list. -/
theorem sortStrings_perm_eq {l1 l2 : List String} (h : List.Perm l1 l2) :
    sortStrings l1 = sortStrings l2 :=
  List.eq_of_perm_of_sorted
    (((List.perm_insertionSort _ l1).trans h).trans
      (List.perm_insertionSort _ l2).symm)
    (List.sorted_insertionSort _ l1)
    (List.sorted_insertionSort _ l2)

/-- Dispatching a dependency list preserves every already-loaded cell,
provided the supplied load function does. -/
theorem loadDepsWith_preserves
    (loadF : AcyclicLoader → String → LoadResult)
    (hF : ∀ g n g2 v e cs, loadF g n = .ok g2 v e cs → preservesLoaded g g2) :
    ∀ ds g g2 cs, loadDepsWith loadF g ds = .ok g2 cs → preservesLoaded g g2 := by
  intro ds
  induction ds with
  | nil =>
    intro g g2 cs h
    simp only [loadDepsWith] at h
    cases h
    exact fun k c hk _ => hk
  | cons d ds ih =>
    intro g g2 cs h
    simp only [loadDepsWith] at h
    cases hc : g.comp d with
    | none => rw [hc] at h; simp at h
    | some cd =>
      rw [hc] at h
      simp only [] at h
      by_cases hl : cd.loaded
      · rw [if_pos hl] at h
        exact ih g g2 cs h
      · rw [if_neg hl] at h
        by_cases hld : cd.loading
        · rw [if_pos hld] at h; simp at h
        · rw [if_neg hld] at h
          cases hload : loadF g d with
          | fuelOut => rw [hload] at h; simp at h
          | hang => rw [hload] at h; simp at h
          | crash cs1 => rw [hload] at h; simp at h
          | ok g1 v e cs1 =>
            rw [hload] at h
            simp only [] at h
            cases hrest : loadDepsWith loadF g1 ds with
            | fuelOut => rw [hrest] at h; simp at h
            | hang => rw [hrest] at h; simp at h
            | crash cs2 => rw [hrest] at h; simp at h
            | ok gr cs2 =>
              rw [hrest] at h
              simp only [DepsResult.ok.injEq] at h
              obtain ⟨hg, _⟩ := h
              subst hg
              exact fun k c hk hlk =>
                ih g1 gr cs2 hrest k c (hF g d g1 v e cs1 hload k c hk hlk) hlk

/-- A Load that returns normally preserves every cell that was already
loaded at the start of the call. -/
theorem Load_preserves :
    ∀ fuel g n g2 v e cs, Load fuel g n = .ok g2 v e cs → preservesLoaded g g2 := by
  intro fuel
  induction fuel with
  | zero => intro g n g2 v e cs h; simp [Load] at h
  | succ fuel ih =>
    intro g n g2 v e cs h
    simp only [Load] at h
    cases hc : g.comp n with
    | none =>
      rw [hc] at h
      simp only [LoadResult.ok.injEq] at h
      obtain ⟨hg, _⟩ := h
      subst hg
      exact fun k c hk _ => hk
    | some c0 =>
      rw [hc] at h
      simp only [] at h
      by_cases hl : c0.loaded
      · rw [if_pos hl] at h
        simp only [LoadResult.ok.injEq] at h
        obtain ⟨hg, _⟩ := h
        subst hg
        exact fun k c hk _ => hk
      · rw [if_neg hl] at h
        cases hdeps : loadDepsWith (Load fuel) g c0.dependencies with
        | crash cs1 => rw [hdeps] at h; simp at h
        | hang => rw [hdeps] at h; simp at h
        | fuelOut => rw [hdeps] at h; simp at h
        | ok g1 cs1 =>
          rw [hdeps] at h
          simp only [] at h
          have hpres1 : preservesLoaded g g1 :=
            loadDepsWith_preserves (Load fuel) ih c0.dependencies g g1 cs1 hdeps
          have hmain : ∀ v2 e2,
              preservesLoaded g (setDone (setLoading g1 n) n v2 e2) := by
            intro v2 e2 k c hk hlk
            by_cases hkn : k = n
            · subst hkn
              rw [hk] at hc
              injection hc with hcc
              subst hcc
              exact absurd hlk (by simp [hl])
            · simp only [setDone, setLoading, if_neg hkn]
              exact hpres1 k c hk hlk
          cases he : (firstDepErr g1 c0.dependencies).map
              (fun p => wrapDep n p.1 p.2) with
          | some e0 =>
            rw [he] at h
            simp only [LoadResult.ok.injEq] at h
            obtain ⟨hg, _⟩ := h
            subst hg
            exact hmain Val.nil (some e0)
          | none =>
            rw [he] at h
            simp only [] at h
            cases hir : interpretRet c0.result
                (c0.fn.body (c0.dependencies.map (compValue g1))) with
            | crashed => rw [hir] at h; simp at h
            | fine v2 e2 =>
              rw [hir] at h
              simp only [LoadResult.ok.injEq] at h
              obtain ⟨hg, _⟩ := h
              subst hg
              exact hmain v2 e2

/-- A loaded component is returned from cache: same loader, cached pair,
no constructor call. -/
theorem Load_cached (fuel : Nat) (g : AcyclicLoader) (name : String)
    (c : CompState) (hc : g.comp name = some c) (hl : c.loaded = true) :
    Load (fuel + 1) g name = .ok g c.value c.err [] := by
  simp [Load, hc, hl]

/-- Dispatching a dependency list whose members are all already loaded does
nothing: no state change, no constructor call. -/
theorem loadDepsWith_all_loaded (loadF : AcyclicLoader → String → LoadResult) :
    ∀ (ds : List String) (g : AcyclicLoader),
      (∀ d, d ∈ ds → ∃ cd, g.comp d = some cd ∧ cd.loaded = true) →
      loadDepsWith loadF g ds = .ok g []
  | [], _, _ => rfl
  | d :: ds, g, h => by
    obtain ⟨cd, hcd, hl⟩ := h d (List.mem_cons_self d ds)
    simp only [loadDepsWith, hcd, hl, if_true]
    exact loadDepsWith_all_loaded loadF ds g
      (fun x hx => h x (List.mem_cons_of_mem d hx))

/-- Congruence for List.any under pointwise agreement on members. -/
theorem any_congr_mem {α : Type} (l : List α) (f f2 : α → Bool)
    (h : ∀ x, x ∈ l → f x = f2 x) : l.any f = l.any f2 := by
  induction l with
  | nil => rfl
  | cons a l ih =>
    simp only [List.any_cons]
    rw [h a (List.mem_cons_self a l),
      ih (fun x hx => h x (List.mem_cons_of_mem a hx))]

/-- needsPurging only consults the overwrite mapping at defined component
names, so restricting the mapping to defined names does not change it. -/
theorem needsPurging_restrict (g : AcyclicLoader) (values : String → Option Val)
    (hg : depClosed g) :
    ∀ fuel n, (g.comp n).isSome = true →
      needsPurging g values fuel n =
        needsPurging g (fun x => if (g.comp x).isSome then values x else none) fuel n := by
  intro fuel
  induction fuel with
  | zero => intro n _; rfl
  | succ fuel ih =>
    intro n hn
    simp only [needsPurging, hn, if_true]
    cases hc : g.comp n with
    | none => rw [hc] at hn
    | some c =>
      simp only []
      congr 1
      exact any_congr_mem c.dependencies _ _
        (fun d hd => ih d (hg n c hc d hd))

/-- C1: the claimed WithOverwrites semantics fails on the code.  On the
repository's own test graph (StaticInt = 5, Plus7 = StaticInt + 7), after
loading Plus7 (value 12) and overwriting StaticInt with 7, the overwritten
StaticInt cell is Done(7, none), but the purged Plus7 cell keeps its copied
loaded flag with a nil value, so Load returns nil from cache with no
constructor call instead of recomputing 14 as the claim (and the
repository's TestAcyclicLoader) requires. -/
theorem c1_withOverwrites_keeps_stale_cache :
    loadValueOf (Load 3 gTest0 "Plus7") = some (.int 12) ∧
    (gTest2.comp "StaticInt").map (fun c => (c.value, c.err, c.loaded)) =
      some (.int 7, none, true) ∧
    (gTest2.comp "Plus7").map (fun c => (c.value, c.err, c.loaded)) =
      some (Val.nil, none, true) ∧
    loadValueOf (Load 3 gTest2 "Plus7") = some Val.nil ∧
    loadErrOf (Load 3 gTest2 "Plus7") = some none ∧
    loadCallsOf (Load 3 gTest2 "Plus7") = some [] :=
  ⟨rfl, rfl, rfl, rfl, rfl, rfl⟩

/-- C2: a valid single component `func() (int, error)` returning (5, nil)
builds fine, but Load crashes: the constructor is invoked (call log [A]) and
then `ret[1].Interface().(error)` panics on the nil error instead of
returning (5, nil). -/
theorem c2_nil_error_interface_conversion_crash :
    buildOk (New mapNilErr) = true ∧ Load 1 gNilErr "A" = .crash ["A"] :=
  ⟨rfl, rfl⟩

/-- C4: when a dependency has failed, Load skips this component's
constructor (empty call log) and returns a DependencyLoadError built by
prepending this component to an existing DependencyLoadError trace, or by a
fresh two-entry trace for any other error; end to end on the chain A
depends on B depends on C with C failing, Load(A) invokes only C's
constructor and reports the trace A, B, C over the original error. -/
theorem c4_dependency_failure_wrapping :
    (∀ (fuel : Nat) (g : AcyclicLoader) (name : String) (c : CompState)
        (d : String) (e : Err),
        g.comp name = some c → c.loaded = false →
        (∀ x, x ∈ c.dependencies → ∃ cx, g.comp x = some cx ∧ cx.loaded = true) →
        firstDepErr g c.dependencies = some (d, e) →
        Load (fuel + 1) g name =
          .ok (setDone (setLoading g name) name Val.nil (some (wrapDep name d e)))
            Val.nil (some (wrapDep name d e)) []) ∧
    (∀ (name d : String) (tr : List String) (inner : Err),
        wrapDep name d (.dependencyLoad tr inner) =
          .dependencyLoad (name :: tr) inner) ∧
    (∀ (name d : String) (e : Err), isDepLoadErr e = false →
        wrapDep name d e = .dependencyLoad [name, d] e) ∧
    loadErrOf (Load 4 gChainFail "A") =
      some (some (.dependencyLoad ["A", "B", "C"] (.user "boom"))) ∧
    loadCallsOf (Load 4 gChainFail "A") = some ["C"] := by
  refine ⟨?_, fun name d tr inner => rfl, ?_, rfl, rfl⟩
  · intro fuel g name c d e hc hl hdeps hfe
    simp only [Load, hc]
    rw [if_neg (by simp [hl])]
    rw [loadDepsWith_all_loaded (Load fuel) c.dependencies g hdeps]
    simp [hfe]
  · intro name d e he
    cases e with
    | user s => rfl
    | undefinedComponent cc => rfl
    | dependencyLoad tr i => simp [isDepLoadErr] at he

/-- C4 witness: instantiating the failure-propagation property on a loader
where pending A depends on B, already failed with the trace B, C: Load(A)
calls no constructor and reports the composed trace A, B, C. -/
theorem c4_dependency_failure_wrapping_witness :
    Load 1 gStepFail "A" =
      .ok (setDone (setLoading gStepFail "A") "A" Val.nil
          (some (Err.dependencyLoad ["A", "B", "C"] (.user "boom"))))
        Val.nil (some (Err.dependencyLoad ["A", "B", "C"] (.user "boom"))) [] :=
  c4_dependency_failure_wrapping.1 0 gStepFail "A" dependentComp "B"
    (.dependencyLoad ["B", "C"] (.user "boom")) rfl rfl
    (fun x hx => by
      simp only [dependentComp, List.mem_singleton] at hx
      subst hx
      exact ⟨failedDepComp, rfl, rfl⟩)
    rfl

/-- C5: cycle detection reports the traversal-path slice from the repeated
name's first occurrence through the repetition: the self-dependency map
reports the path A, A naming component A; the map with A depending on B, B
on C, C on B reports B, C, B naming B; the three-cycle map reports
A, B, C, A naming A. -/
theorem c5_cycle_error_paths :
    New mapSelf = .defErr "A" (.dependencyCycle ["A", "A"]) ∧
    New mapBCB = .defErr "B" (.dependencyCycle ["B", "C", "B"]) ∧
    New mapABCA = .defErr "A" (.dependencyCycle ["A", "B", "C", "A"]) :=
  ⟨rfl, rfl, rfl⟩

/-- C6 counterexample: in mapMixedErrs, component A (first in name order)
fails its dependency checks -- alone it yields the undefined-dependency
error, as the second conjunct shows -- yet New returns B's nil-constructor
error, because all constructor-shape checks run for every name before any
dependency check: the error returned is not the first definition error in
name order. -/
theorem c6_name_order_counterexample :
    New mapMixedErrs = .defErr "B" .nilDefinition ∧
    New mapOnlyA = .defErr "A" (.undefinedDependency "Z") ∧
    strLe "A" "B" = true ∧ ("A" : String) ≠ "B" :=
  ⟨rfl, rfl, rfl, by decide⟩

/-- C6 (amended): New sorts the component names before validating and every
subsequent step depends only on the sorted name list and the map contents,
so the result -- in particular whichever definition error is returned by
the phased checks -- is identical for any two iteration orders of the same
key set. -/
theorem c6_validation_deterministic (k1 k2 : List String)
    (f : String → Option Definition) (h : List.Perm k1 k2) :
    New ⟨k1, f⟩ = New ⟨k2, f⟩ := by
  have hs : sortStrings k1 = sortStrings k2 := sortStrings_perm_eq h
  simp only [New, hs]

/-- C6 witness: the two iteration orders of the mixed-error map build to the
same result. -/
theorem c6_validation_deterministic_witness :
    New ⟨["B", "A"], mapMixedErrs.find⟩ = New ⟨["A", "B"], mapMixedErrs.find⟩ :=
  c6_validation_deterministic ["B", "A"] ["A", "B"] mapMixedErrs.find (by decide)

/-- C7: a Done cell is permanent.  First: a loaded component is answered
from cache -- the same loader is returned (no state change at all), with
the cached value and error pair (errors exactly like successes) and an
empty call log (no constructor invocation).  Second: a Load returning
normally preserves every cell that was already Done, unchanged, so no load
of any component resets a Done cell; only Clone or WithOverwrites build new
state. -/
theorem c7_done_state_permanent :
    (∀ (fuel : Nat) (g : AcyclicLoader) (name : String) (c : CompState),
        g.comp name = some c → c.loaded = true →
        Load (fuel + 1) g name = .ok g c.value c.err []) ∧
    (∀ (fuel : Nat) (g : AcyclicLoader) (n : String) (g2 : AcyclicLoader)
        (v : Val) (e : Option Err) (cs : List String),
        Load fuel g n = .ok g2 v e cs →
        ∀ k c, g.comp k = some c → c.loaded = true → g2.comp k = some c) :=
  ⟨Load_cached, fun fuel g n g2 v e cs h => Load_preserves fuel g n g2 v e cs h⟩

/-- C7 witness: loading the already-loaded component A returns the cached
pair (5, none), leaves the loader untouched, and calls no constructor. -/
theorem c7_done_state_permanent_witness :
    Load 1 gDone "A" = .ok gDone (Val.int 5) none [] :=
  c7_done_state_permanent.1 0 gDone "A" doneComp rfl rfl

/-- C8: Clone keeps the name set, shares the immutable spec fields (fn,
result, dependencies), copies the cached value and error verbatim, copies
the loaded flag, and sets the loading flag to the source's loaded flag --
so a Done cell is copied verbatim and a merely in-flight cell (loading,
not loaded) comes out Pending. -/
theorem c8_clone_state_copy (g : AcyclicLoader) (k : String) (c : CompState)
    (h : g.comp k = some c) :
    (Clone g).names = g.names ∧
    (Clone g).comp k = some { fn := c.fn, result := c.result,
                              dependencies := c.dependencies,
                              value := c.value, err := c.err,
                              loaded := c.loaded, loading := c.loaded } :=
  ⟨rfl, by simp [Clone, h]⟩

/-- C8 witness: cloning a loader whose only component is in flight yields
that component Pending (loaded and loading both false). -/
theorem c8_clone_state_copy_witness :
    (Clone gInflight).names = gInflight.names ∧
    (Clone gInflight).comp "A" = some { fn := inflightComp.fn,
                                        result := inflightComp.result,
                                        dependencies := inflightComp.dependencies,
                                        value := inflightComp.value,
                                        err := inflightComp.err,
                                        loaded := false, loading := false } :=
  c8_clone_state_copy gInflight "A" inflightComp rfl

/-- C9: on a map where A declares a dependency of type int on B whose
constructor declares no results, New reaches the type-mismatch branch and
panics calling String() on the absent (nil) result type instead of
returning a ComponentDefinitionError. -/
theorem c9_new_crashes_on_nil_result_type : New mapNilResult = .crashed :=
  rfl

/-- C10: overwrite keys that are not defined component names are ignored:
the derived loader keeps the same name set and equals the loader derived
from the same mapping restricted to defined names (on any loader whose
dependencies all resolve, as New guarantees). -/
theorem c10_overwrites_ignore_undefined_keys (g : AcyclicLoader)
    (values : String → Option Val) (hg : depClosed g) :
    (WithOverwrites g values).names = g.names ∧
    WithOverwrites g values =
      WithOverwrites g (fun x => if (g.comp x).isSome then values x else none) := by
  refine ⟨rfl, ?_⟩
  simp only [WithOverwrites]
  congr 1
  funext name
  cases hc : g.comp name with
  | none => rfl
  | some c =>
    have hn : (g.comp name).isSome = true := by simp [hc]
    have hnp := needsPurging_restrict g values hg (g.names.length + 1) name hn
    simp only [Option.map_some']
    rw [← hnp]
    simp [hn]

/-- C10 witness: on the one-component loader, an overwrite mapping whose
only key Z is undefined derives the same loader as its restriction (the
empty mapping). -/
theorem c10_overwrites_ignore_undefined_keys_witness :
    (WithOverwrites gSolo strayVals).names = gSolo.names ∧
    WithOverwrites gSolo strayVals =
      WithOverwrites gSolo
        (fun x => if (gSolo.comp x).isSome then strayVals x else none) :=
  c10_overwrites_ignore_undefined_keys gSolo strayVals
    (fun n c h d hd => by
      by_cases hn : n = "A"
      · subst hn
        have hA : gSolo.comp "A" = some soloComp := rfl
        rw [hA] at h
        injection h with hh
        rw [← hh] at hd
        simp [soloComp] at hd
      · have hN : gSolo.comp n = none := by simp [gSolo, hn]
        rw [hN] at h
        exact Option.noConfusion h)
